import Mathlib

set_option linter.dupNamespace false

/-!
# Ignition user data for kubeadm bootstrap (packages `ignition` and `ignition/clc`)

A shallow embedding of

* `bootstrap/kubeadm/internal/ignition/ignition.go`
  (`NewNode`, `NewJoinControlPlane`, `NewInitControlPlane`, `render`), and
* `bootstrap/kubeadm/internal/ignition/clc/clc.go`
  (`clcTemplate`, `templateYAMLIndent`, `renderCLC`, `Render`, `clcToIgnition`),

followed by the properties of these functions.

Conventions.

* A Go `string` / `[]byte` is a `List Char` (`GoString`). The separator and the white space
  that the code looks for are ASCII, so working on characters agrees with working on bytes.
* A Go `error` is its message (`GoError`); a result `([]byte, error)` is a pair of options,
  `none` standing for `nil`.
* A pointer that may be `nil` is an `Option`; a function that assigns through its pointer
  argument returns the pointee after the call next to its results (`Ret.input`).
* The libraries outside the repository (the Container Linux Config transpiler, the Ignition
  `Append`, `json.Marshal`) and `Certificates.AsFiles` are fields of `Env`; every theorem
  holds for an arbitrary `Env` unless it names a concrete one.
-/

/-- A Go string (also used for `[]byte`). -/
abbrev GoString := List Char

/-- A Go error value, identified with the text of `Error()`. -/
abbrev GoError := List Char

namespace strings

/-- Go function `strings.Repeat(s, count)` for a count that is not negative. -/
def Repeat (s : GoString) (count : Nat) : GoString :=
  (List.replicate count s).flatten

/-- Go function `strings.Split(s, sep)` for a separator of one character: the pieces of `s`
between the occurrences of `sep`; one empty piece for the empty string. -/
def Split (s : GoString) (sep : Char) : List GoString :=
  s.splitOn sep

/-- Go function `strings.Join(elems, sep)`. -/
def Join (elems : List GoString) (sep : GoString) : GoString :=
  sep.intercalate elems

/-- The white space of `text/template` trim markers (`spaceChars = " \t\r\n"`). -/
def isSpace (c : Char) : Bool :=
  c == ' ' || c == '\t' || c == '\r' || c == '\n'

/-- Go function `strings.TrimLeft(s, " \t\r\n")`. -/
def TrimLeft (s : GoString) : GoString :=
  s.dropWhile isSpace

/-- Go function `strings.TrimRight(s, " \t\r\n")`. -/
def TrimRight (s : GoString) : GoString :=
  (s.reverse.dropWhile isSpace).reverse

end strings

namespace fmt

/-- Go function `fmt.Sprintf(format, args...)` for a format whose verbs are `%s` and `%v`
and for string arguments, no more of them than verbs. Both verbs print a string as it is;
a verb with no argument left prints `%!s(MISSING)` (resp. `v`), a percent sign at the end
`%!(NOVERB)`; other characters are copied. -/
def Sprintf : GoString → List GoString → GoString
  | [], _ => []
  | [c], _ => if c = '%' then "%!(NOVERB)".toList else [c]
  | c :: d :: rest, args =>
    if c = '%' ∧ (d = 's' ∨ d = 'v') then
      match args with
      | a :: as => a ++ Sprintf rest as
      | [] => "%!".toList ++ [d] ++ "(MISSING)".toList ++ Sprintf rest []
    else c :: Sprintf (d :: rest) args

end fmt

namespace errors

/-- Go function `errors.Wrapf(err, message)` for a non-nil `err`: the message, a colon and
a space, the cause. -/
def Wrapf (err : GoError) (message : GoString) : GoError :=
  message ++ ": ".toList ++ err

end errors

namespace bootstrapv1

/-- Modelled from the spec: the type declaration `bootstrapv1.File` (package `api/v1alpha4`),
with the fields the template reads: `WriteFile{Path, Permissions, Content}`. -/
structure File where
  Path : GoString
  Permissions : GoString
  Content : GoString
deriving DecidableEq, Repr

/-- Modelled from the spec: the type declaration `bootstrapv1.ContainerLinuxConfig`; its
`AdditionalConfig` is the override snippet, raw intermediate source text. -/
structure ContainerLinuxConfig where
  AdditionalConfig : GoString
deriving DecidableEq, Repr

/-- Modelled from the spec: the type declaration `bootstrapv1.IgnitionConfig`, holding a
pointer to a `ContainerLinuxConfig`. -/
structure IgnitionConfig where
  ContainerLinuxConfig : Option ContainerLinuxConfig
deriving DecidableEq, Repr

end bootstrapv1

namespace cloudinit

/-- Modelled from the spec: the type declaration `cloudinit.BaseUserData`, the base
descriptor: ordered write files, caller-supplied extra files, ordered pre- and post-commands,
the computed command and the verbosity used to build it. These are the fields that the two
packages read or assign. -/
structure BaseUserData where
  PreKubeadmCommands : List GoString
  PostKubeadmCommands : List GoString
  AdditionalFiles : List bootstrapv1.File
  WriteFiles : List bootstrapv1.File
  KubeadmCommand : GoString
  KubeadmVerbosity : GoString
deriving DecidableEq, Repr

/-- Modelled from the spec: the type declaration `cloudinit.NodeInput`: the base descriptor
(embedded) and the cluster-join configuration text. -/
structure NodeInput extends BaseUserData where
  JoinConfiguration : GoString
deriving DecidableEq, Repr

/-- Modelled from the spec: the type declaration `cloudinit.ControlPlaneJoinInput`: the base
descriptor and the certificates collaborator (both embedded) and the cluster-join
configuration text. `Cert` is the type of the certificates. -/
structure ControlPlaneJoinInput (Cert : Type) extends BaseUserData where
  Certificates : Cert
  JoinConfiguration : GoString
deriving DecidableEq, Repr

/-- Modelled from the spec: the type declaration `cloudinit.ControlPlaneInput`: the base
descriptor and the certificates collaborator (both embedded), the cluster configuration
document and the init configuration document. -/
structure ControlPlaneInput (Cert : Type) extends BaseUserData where
  Certificates : Cert
  ClusterConfiguration : GoString
  InitConfiguration : GoString
deriving DecidableEq, Repr

end cloudinit

/-- The collaborators that are not part of the two packages: `Certificates.AsFiles`
(package `util/secret`), the Container Linux Config transpiler (`clct.Parse`, `clct.Convert`
and the diagnostic report they return), the Ignition merger `ignition.Append`, the zero value
`ignitionTypes.Config{}` and `json.Marshal`. All of them are deterministic functions. -/
structure Env where
  /-- The type `secret.Certificates`. -/
  Certificates : Type
  /-- The method `Certificates.AsFiles()`. -/
  AsFiles : Certificates → List bootstrapv1.File
  /-- The type `clct types.Config`, a parsed Container Linux Config. -/
  ClcConfig : Type
  /-- The type `astnode.AstNode`. -/
  AST : Type
  /-- The type `report.Entry`, one diagnostic. -/
  Entry : Type
  /-- The type `report.Report`. -/
  Report : Type
  /-- The field `report.Entries`. -/
  Entries : Report → List Entry
  /-- The method `report.IsFatal()`. -/
  IsFatal : Report → Bool
  /-- The method `report.String()`. -/
  ReportString : Report → GoString
  /-- The type `ignitionTypes.Config`, the target document. -/
  Config : Type
  /-- The zero value `ignitionTypes.Config{}`. -/
  emptyConfig : Config
  /-- The function `clct.Parse(data)`. -/
  Parse : GoString → ClcConfig × AST × Report
  /-- The function `clct.Convert(cfg, platform, ast)`. -/
  Convert : ClcConfig → GoString → AST → Config × Report
  /-- The function `ignition.Append(oldConfig, newConfig)`. -/
  Append : Config → Config → Config
  /-- The function `json.Marshal(&cfg)`. -/
  Marshal : Config → Option GoString × Option GoError

/-- A call from `Render` to one of its two stages, with the arguments of the call. -/
inductive Call where
  | renderCLC (input : cloudinit.BaseUserData) (kubeadmConfig : GoString)
  | clcToIgnition (data : GoString)
deriving DecidableEq, Repr

/-- What `Render` returns, `([]byte, error)`, and the stage calls it made, in order. -/
structure Result where
  data : Option GoString
  err : Option GoError
  calls : List Call
deriving DecidableEq, Repr

/-- What a role entry point returns, `([]byte, error)`, the stage calls it made, and
`input`, the object behind its pointer argument when the call has returned. -/
structure Ret (α : Type) where
  input : α
  data : Option GoString
  err : Option GoError
  calls : List Call

namespace clc

/-- Source `clc.go:100-104`:
`split := strings.Split(input, "\n")`, `ident := "\n" + strings.Repeat(" ", i)`,
`return strings.Repeat(" ", i) + strings.Join(split, ident)`.
The width is a Go `int`; `strings.Repeat` panics on a negative count, so the width ranges
over the natural numbers. -/
def templateYAMLIndent (i : Nat) (input : GoString) : GoString :=
  let split := strings.Split input '\n'
  let ident := "\n".toList ++ strings.Repeat " ".toList i
  strings.Repeat " ".toList i ++ strings.Join split ident

/-! ### The template `clcTemplate` (`clc.go:36-86`)

`text/template` cuts the constant at its actions into text pieces. An action written with a
left marker (the opening delimiter followed by a minus sign and a space) trims the white
space at the end of the text before it (`strings.TrimRight`); an action written with a right
marker trims the white space at the start of the text after it (`strings.TrimLeft`). The
pieces below are the raw texts of the source between two actions; the trimming is applied
where a piece is written out. -/

/-- Source `clc.go:37-85`, the constant `clcTemplate`. The two bytes of an opening delimiter
are written `\x7b\x7b` and those of a closing delimiter `\x7d\x7d`. -/
def clcTemplate : GoString :=
  ("---\nsystemd:\n  units:\n    - name: kubeadm.service\n      enabled: true\n" ++
   "      contents: |\n        [Unit]\n        Description=kubeadm\n        [Service]\n" ++
   "        # To not restart the unit when it exits, as it is expected.\n" ++
   "        Type=oneshot\n        ExecStart=/etc/kubeadm.sh\n        [Install]\n" ++
   "        WantedBy=multi-user.target\n\nstorage:\n" ++
   "  files:\x7b\x7b range .WriteFiles \x7d\x7d\n" ++
   "  - path: \x7b\x7b.Path\x7d\x7d\n" ++
   "    \x7b\x7b if ne .Permissions \"\" -\x7d\x7d\n" ++
   "    mode: \x7b\x7b.Permissions\x7d\x7d\n" ++
   "    \x7b\x7b end -\x7d\x7d\n" ++
   "    contents:\n" ++
   "      inline: |\n" ++
   "\x7b\x7b.Content | Indent 8\x7d\x7d\n" ++
   "\x7b\x7b- end \x7d\x7d\n" ++
   "  - path: /etc/kubeadm.sh\n" ++
   "    mode: 0700\n" ++
   "    contents:\n" ++
   "      inline: |\n" ++
   "        #!/bin/bash\n" ++
   "        set -e\n" ++
   "\n" ++
   "        \x7b\x7b- range .PreKubeadmCommands \x7d\x7d\n" ++
   "        \x7b\x7b . \x7d\x7d\n" ++
   "        \x7b\x7b- end \x7d\x7d\n" ++
   "\n" ++
   "        \x7b\x7b .KubeadmCommand \x7d\x7d\n" ++
   "        rm /etc/kubeadm.yml\n" ++
   "\n" ++
   "        \x7b\x7b- range .PostKubeadmCommands \x7d\x7d\n" ++
   "        \x7b\x7b . \x7d\x7d\n" ++
   "        \x7b\x7b- end \x7d\x7d\n" ++
   "  - path: /etc/kubeadm.yml\n" ++
   "    mode: 0600\n" ++
   "    contents:\n" ++
   "      inline: |\n" ++
   "        ---\n" ++
   "\x7b\x7b .KubeadmConfig | Indent 8 \x7d\x7d\n").toList

/-- Text of `clc.go:37-53`, up to the action `range .WriteFiles`. -/
def textHead : GoString :=
  ("---\nsystemd:\n  units:\n    - name: kubeadm.service\n      enabled: true\n" ++
   "      contents: |\n        [Unit]\n        Description=kubeadm\n        [Service]\n" ++
   "        # To not restart the unit when it exits, as it is expected.\n" ++
   "        Type=oneshot\n        ExecStart=/etc/kubeadm.sh\n        [Install]\n" ++
   "        WantedBy=multi-user.target\n\nstorage:\n  files:").toList

/-- Text of `clc.go:53-54`, between `range .WriteFiles` and `.Path`. -/
def textPath : GoString := "\n  - path: ".toList

/-- Text of `clc.go:54-55`, between `.Path` and `if ne .Permissions ""`. -/
def textBeforeIf : GoString := "\n    ".toList

/-- Text of `clc.go:55-56`, between the `if` action and `.Permissions`. -/
def textMode : GoString := "\n    mode: ".toList

/-- Text of `clc.go:56-57`, between `.Permissions` and the `end` of the `if`. -/
def textAfterMode : GoString := "\n    ".toList

/-- Text of `clc.go:57-60`, between the `end` of the `if` and `.Content | Indent 8`. -/
def textContents : GoString := "\n    contents:\n      inline: |\n".toList

/-- Text of `clc.go:60-61`, between `.Content | Indent 8` and the `end` of the range. -/
def textAfterContent : GoString := "\n".toList

/-- Text of `clc.go:61-69`, between the `end` of the range over the write files and
`range .PreKubeadmCommands`. -/
def textScript : GoString :=
  ("\n  - path: /etc/kubeadm.sh\n    mode: 0700\n    contents:\n" ++
    "      inline: |\n        #!/bin/bash\n        set -e\n\n        ").toList

/-- Text of `clc.go:69-70` and of `clc.go:76-77`, between a `range` over commands and the
action that prints the command. -/
def textBeforeCommand : GoString := "\n        ".toList

/-- Text of `clc.go:70-71` and of `clc.go:77-78`, between the action that prints the command
and the `end` of the range. -/
def textAfterCommand : GoString := "\n        ".toList

/-- Text of `clc.go:71-73`, between the `end` of the range over the pre-commands and
`.KubeadmCommand`. -/
def textBeforeKubeadm : GoString := "\n\n        ".toList

/-- Text of `clc.go:73-76`, between `.KubeadmCommand` and `range .PostKubeadmCommands`. -/
def textCleanup : GoString := "\n        rm /etc/kubeadm.yml\n\n        ".toList

/-- Text of `clc.go:78-84`, between the `end` of the range over the post-commands and
`.KubeadmConfig | Indent 8`. -/
def textConfig : GoString :=
  ("\n  - path: /etc/kubeadm.yml\n    mode: 0600\n    contents:\n      inline: |\n" ++
   "        ---\n").toList

/-- Text of `clc.go:84-85`, after `.KubeadmConfig | Indent 8`. -/
def textTail : GoString := "\n".toList

/-- Body of `range .WriteFiles` (`clc.go:53-61`) executed on one file: the path; when
`ne .Permissions ""`, the mode; the content through `Indent 8`. The `if` and its `end` have a
right marker, so the texts after them are trimmed on the left; the `end` of the range has a
left marker, so the text before it is trimmed on the right. -/
def execWriteFile (f : bootstrapv1.File) : GoString :=
  textPath ++ f.Path ++ textBeforeIf ++
  (if f.Permissions ≠ [] then
    strings.TrimLeft textMode ++ f.Permissions ++ textAfterMode else []) ++
  strings.TrimLeft textContents ++ templateYAMLIndent 8 f.Content ++
  strings.TrimRight textAfterContent

/-- Body of `range .PreKubeadmCommands` and of `range .PostKubeadmCommands`
(`clc.go:69-71`, `clc.go:76-78`) executed on one command. The `end` of the range has a left
marker, so the text before it is trimmed on the right. -/
def execCommand (c : GoString) : GoString :=
  textBeforeCommand ++ c ++ strings.TrimRight textAfterCommand

/-- Execution of the parsed `clcTemplate` on `render{BaseUserData: input, KubeadmConfig}`.
A `range` writes its body once per element, in order, and nothing for an empty list. The two
`range` actions over commands have a left marker, so the texts before them are trimmed on
the right. -/
def execTemplate (input : cloudinit.BaseUserData) (kubeadmConfig : GoString) : GoString :=
  textHead ++ (input.WriteFiles.map execWriteFile).flatten ++
  strings.TrimRight textScript ++ (input.PreKubeadmCommands.map execCommand).flatten ++
  textBeforeKubeadm ++ input.KubeadmCommand ++
  strings.TrimRight textCleanup ++ (input.PostKubeadmCommands.map execCommand).flatten ++
  textConfig ++ templateYAMLIndent 8 kubeadmConfig ++ textTail

/-- Source `clc.go:106-120`. For a non-nil `input` the execution of the template has no
failing action (every field exists, `ne` compares two strings, `Indent` returns no error,
the buffer accepts every write), so `t.Execute` returns nil and the function returns
`out.Bytes(), nil`. -/
def renderCLC (input : cloudinit.BaseUserData) (kubeadmConfig : GoString) :
    Option GoString × Option GoError :=
  (some (execTemplate input kubeadmConfig), none)

/-- Source `clc.go:150-163`. -/
def clcToIgnition (E : Env) (data : GoString) : E.Config × Option GoError :=
  let (clc, ast, report) := E.Parse data
  if (E.Entries report).length > 0 ∨ E.IsFatal report = true then
    (E.emptyConfig, some (fmt.Sprintf "error parsing Container Linux Config: %v".toList
      [E.ReportString report]))
  else
    let (ign, report) := E.Convert clc [] ast
    if (E.Entries report).length > 0 ∨ E.IsFatal report = true then
      (E.emptyConfig, some (fmt.Sprintf "error converting to Ignition: %v".toList
        [E.ReportString report]))
    else
      (ign, none)

/-- Source `clc.go:142-147`, the end of `Render`: `json.Marshal(&ign)` and its error check. -/
def marshal (E : Env) (ign : E.Config) (calls : List Call) : Result :=
  match E.Marshal ign with
  | (_, some err) =>
    ⟨none, some (errors.Wrapf err "marshaling generated Ignition config into JSON".toList),
      calls⟩
  | (userData, none) => ⟨userData, none, calls⟩

/-- Source `clc.go:122-148`. The third component of the result lists the calls to
`renderCLC` and `clcToIgnition` in the order they are made. -/
def Render (E : Env) (input : cloudinit.BaseUserData) (clc : bootstrapv1.ContainerLinuxConfig)
    (kubeadmConfig : GoString) : Result :=
  let c₁ := Call.renderCLC input kubeadmConfig
  match renderCLC input kubeadmConfig with
  | (_, some err) =>
    ⟨none, some (errors.Wrapf err "rendering CLC configuration".toList), [c₁]⟩
  | (clcBytes, none) =>
    let c₂ := Call.clcToIgnition (clcBytes.getD [])
    match clcToIgnition E (clcBytes.getD []) with
    | (_, some err) =>
      ⟨none, some (errors.Wrapf err "converting generated CLC to Ignition".toList), [c₁, c₂]⟩
    | (ign, none) =>
      if clc.AdditionalConfig ≠ [] then
        let c₃ := Call.clcToIgnition clc.AdditionalConfig
        match clcToIgnition E clc.AdditionalConfig with
        | (_, some err) =>
          ⟨none, some (errors.Wrapf err "converting additional CLC to Ignition".toList),
            [c₁, c₂, c₃]⟩
        | (additionalIgn, none) => marshal E (E.Append ign additionalIgn) [c₁, c₂, c₃]
      else marshal E ign [c₁, c₂]

end clc

namespace ignition

/-- Source `ignition.go:30`. -/
def joinSubcommand : GoString := "join".toList

/-- Source `ignition.go:31`. -/
def initSubcommand : GoString := "init".toList

/-- Source `ignition.go:32`. -/
def kubeadmCommandTemplate : GoString := "kubeadm %s --config /etc/kubeadm.yml %s".toList

/-- Source `ignition.go:36-40`: an embedded pointer to the base input and a pointer to the
Ignition configuration. -/
structure NodeInput where
  NodeInput : Option cloudinit.NodeInput
  IgnitionConfig : Option bootstrapv1.IgnitionConfig
deriving DecidableEq, Repr

/-- Source `ignition.go:43-47`. -/
structure ControlPlaneJoinInput (Cert : Type) where
  ControlPlaneJoinInput : Option (cloudinit.ControlPlaneJoinInput Cert)
  IgnitionConfig : Option bootstrapv1.IgnitionConfig
deriving DecidableEq, Repr

/-- Source `ignition.go:50-54`. -/
structure ControlPlaneInput (Cert : Type) where
  ControlPlaneInput : Option (cloudinit.ControlPlaneInput Cert)
  IgnitionConfig : Option bootstrapv1.IgnitionConfig
deriving DecidableEq, Repr

/-- Source `ignition.go:108-115`: the override is the empty `ContainerLinuxConfig{}` unless
both pointers are non-nil. -/
def render (E : Env) (input : cloudinit.BaseUserData)
    (ignitionConfig : Option bootstrapv1.IgnitionConfig) (kubeadmConfig : GoString) : Result :=
  let clcConfig : bootstrapv1.ContainerLinuxConfig :=
    match ignitionConfig with
    | some cfg =>
      match cfg.ContainerLinuxConfig with
      | some c => c
      | none => ⟨[]⟩
    | none => ⟨[]⟩
  clc.Render E input clcConfig kubeadmConfig

/-- Source `ignition.go:57-70`. The two assignments go through the embedded pointer, so
they change the caller's `cloudinit.NodeInput`; `Ret.input` is the input after the call. -/
def NewNode (E : Env) (input : Option NodeInput) : Ret (Option NodeInput) :=
  match input with
  | none => ⟨none, none, some "input can't be nil".toList, []⟩
  | some input =>
    match input.NodeInput with
    | none => ⟨some input, none, some "node input can't be nil".toList, []⟩
    | some base =>
      let base := { base with WriteFiles := base.WriteFiles ++ base.AdditionalFiles }
      let base := { base with
        KubeadmCommand :=
          fmt.Sprintf kubeadmCommandTemplate [joinSubcommand, base.KubeadmVerbosity] }
      let r := render E base.toBaseUserData input.IgnitionConfig base.JoinConfiguration
      ⟨some { input with NodeInput := some base }, r.data, r.err, r.calls⟩

/-- Source `ignition.go:73-87`. -/
def NewJoinControlPlane (E : Env) (input : Option (ControlPlaneJoinInput E.Certificates)) :
    Ret (Option (ControlPlaneJoinInput E.Certificates)) :=
  match input with
  | none => ⟨none, none, some "input can't be nil".toList, []⟩
  | some input =>
    match input.ControlPlaneJoinInput with
    | none => ⟨some input, none, some "controlplane join input can't be nil".toList, []⟩
    | some base =>
      let base := { base with WriteFiles := E.AsFiles base.Certificates }
      let base := { base with WriteFiles := base.WriteFiles ++ base.AdditionalFiles }
      let base := { base with
        KubeadmCommand :=
          fmt.Sprintf kubeadmCommandTemplate [joinSubcommand, base.KubeadmVerbosity] }
      let r := render E base.toBaseUserData input.IgnitionConfig base.JoinConfiguration
      ⟨some { input with ControlPlaneJoinInput := some base }, r.data, r.err, r.calls⟩

/-- Source `ignition.go:90-106`. -/
def NewInitControlPlane (E : Env) (input : Option (ControlPlaneInput E.Certificates)) :
    Ret (Option (ControlPlaneInput E.Certificates)) :=
  match input with
  | none => ⟨none, none, some "input can't be nil".toList, []⟩
  | some input =>
    match input.ControlPlaneInput with
    | none => ⟨some input, none, some "controlplane input can't be nil".toList, []⟩
    | some base =>
      let base := { base with WriteFiles := E.AsFiles base.Certificates }
      let base := { base with WriteFiles := base.WriteFiles ++ base.AdditionalFiles }
      let base := { base with
        KubeadmCommand :=
          fmt.Sprintf kubeadmCommandTemplate [initSubcommand, base.KubeadmVerbosity] }
      let kubeadmConfig := fmt.Sprintf "%s\n---\n%s".toList
        [base.ClusterConfiguration, base.InitConfiguration]
      let r := render E base.toBaseUserData input.IgnitionConfig kubeadmConfig
      ⟨some { input with ControlPlaneInput := some base }, r.data, r.err, r.calls⟩

end ignition



/-! ### A concrete environment

Used to evaluate the functions on concrete inputs. -/

/-- A small instance of the collaborators. Certificates are given as their files. The
parser keeps the source text and reports one warning, not fatal, when the text holds a tab
character. The converter turns a source into a document holding that one source. A document
is the list of its sources; `Append` puts the entries of the second document after those of
the first; `Marshal` writes the sources one after the other, separated by a newline. -/
def exampleEnv : Env where
  Certificates := List bootstrapv1.File
  AsFiles := fun certs => certs
  ClcConfig := GoString
  AST := Unit
  Entry := GoString
  Report := List GoString × Bool
  Entries := fun r => r.1
  IsFatal := fun r => r.2
  ReportString := fun r => strings.Join r.1 "\n".toList
  Config := List GoString
  emptyConfig := []
  Parse := fun data =>
    (data, (), (if '\t' ∈ data then ["warning: tab character".toList] else [], false))
  Convert := fun cfg _ _ => ([cfg], ([], false))
  Append := fun a b => a ++ b
  Marshal := fun cfg => (some (strings.Join cfg "\n".toList), none)

/-- The file of the override snippet in `ignition_test.go:93-100`. -/
def exampleFile : bootstrapv1.File :=
  ⟨"/etc/foo".toList, "0644".toList, "foo bar baz".toList⟩

/-- A base descriptor with the given write files and extra files, no commands, and the
verbosity `--v 2`. -/
def exampleBase (writeFiles additionalFiles : List bootstrapv1.File) : cloudinit.BaseUserData :=
  { PreKubeadmCommands := [], PostKubeadmCommands := [], AdditionalFiles := additionalFiles,
    WriteFiles := writeFiles, KubeadmCommand := [], KubeadmVerbosity := "--v 2".toList }

/-- A join-worker input over `exampleBase` with no Ignition configuration. -/
def exampleNodeInput (writeFiles additionalFiles : List bootstrapv1.File) :
    ignition.NodeInput :=
  { NodeInput := some { toBaseUserData := exampleBase writeFiles additionalFiles,
                        JoinConfiguration := "kind: JoinConfiguration".toList },
    IgnitionConfig := none }

/-- A join-control-plane input over `exampleBase` with no Ignition configuration. -/
def exampleJoinInput (writeFiles additionalFiles certs : List bootstrapv1.File) :
    ignition.ControlPlaneJoinInput exampleEnv.Certificates :=
  { ControlPlaneJoinInput := some { toBaseUserData := exampleBase writeFiles additionalFiles,
                                    Certificates := certs,
                                    JoinConfiguration := "kind: JoinConfiguration".toList },
    IgnitionConfig := none }

/-- A join-worker input whose verbosity holds a newline: `--v 2`, a newline,
`echo injected`. -/
def exampleInjectedInput : ignition.NodeInput :=
  { NodeInput := some
      { toBaseUserData :=
          { exampleBase [] [] with KubeadmVerbosity := "--v 2\necho injected".toList },
        JoinConfiguration := "kind: JoinConfiguration".toList },
    IgnitionConfig := none }

/-- A descriptor with one write file, one pre-command, one post-command and the join
command. -/
def exampleScriptBase : cloudinit.BaseUserData :=
  { PreKubeadmCommands := ["echo before".toList],
    PostKubeadmCommands := ["echo after".toList],
    AdditionalFiles := [], WriteFiles := [exampleFile],
    KubeadmCommand := "kubeadm join --config /etc/kubeadm.yml --v 2".toList,
    KubeadmVerbosity := "--v 2".toList }

/-! ## Properties -/

/-! ### Strings -/

theorem strings.not_mem_of_mem_Split (x : Char) (s : GoString) :
    ∀ l ∈ strings.Split s x, x ∉ l := by
  unfold strings.Split
  induction s with
  | nil => intro l hl; simp [List.splitOn] at hl; simp [hl]
  | cons c cs ih =>
    intro l hl
    simp only [List.splitOn] at hl ih
    rw [List.splitOnP_cons] at hl
    by_cases h : (c == x) = true
    · rw [if_pos h, List.mem_cons] at hl
      rcases hl with rfl | hl
      · simp
      · exact ih l hl
    · rw [if_neg h] at hl
      cases hsp : List.splitOnP (fun y => y == x) cs with
      | nil => exact absurd hsp (List.splitOnP_ne_nil _ _)
      | cons hd tl =>
        rw [hsp] at hl ih
        rw [List.modifyHead_cons, List.mem_cons] at hl
        rcases hl with hl | hl
        · subst hl
          intro hx
          rcases List.mem_cons.mp hx with hxc | hxh
          · exact h (by simp [hxc])
          · exact ih hd (List.mem_cons_self _ _) hxh
        · exact ih l (List.mem_cons_of_mem _ hl)

theorem strings.Split_ne_nil (s : GoString) (x : Char) : strings.Split s x ≠ [] := by
  unfold strings.Split List.splitOn
  exact List.splitOnP_ne_nil _ _

theorem strings.Join_Split (s : GoString) (x : Char) :
    strings.Join (strings.Split s x) [x] = s := by
  unfold strings.Join strings.Split
  exact List.intercalate_splitOn s x

theorem strings.Split_Join (x : Char) (ls : List GoString) (hx : ∀ l ∈ ls, x ∉ l)
    (hls : ls ≠ []) : strings.Split (strings.Join ls [x]) x = ls := by
  unfold strings.Join strings.Split
  exact List.splitOn_intercalate ls x hx hls

theorem strings.Repeat_space (i : Nat) : strings.Repeat " ".toList i = List.replicate i ' ' := by
  unfold strings.Repeat
  induction i with
  | zero => rfl
  | succ n ih => rw [List.replicate_succ, List.flatten_cons, ih]; rfl

theorem strings.Join_indent (pre sep : GoString) (ls : List GoString) (h : ls ≠ []) :
    pre ++ strings.Join ls (sep ++ pre) = strings.Join (ls.map (fun l => pre ++ l)) sep := by
  unfold strings.Join
  induction ls with
  | nil => exact absurd rfl h
  | cons a t ih =>
    cases t with
    | nil => simp [List.intercalate]
    | cons b t =>
      have := ih (by simp)
      simp only [List.intercalate, List.intersperse, List.map, List.flatten] at this ⊢
      rw [← this]
      simp [List.append_assoc]

/-- The indented text is the lines of the input, each behind `i` spaces, joined by newlines. -/
theorem clc.templateYAMLIndent_eq_Join (i : Nat) (s : GoString) :
    clc.templateYAMLIndent i s
      = strings.Join ((strings.Split s '\n').map (fun l => List.replicate i ' ' ++ l)) ['\n'] := by
  unfold clc.templateYAMLIndent
  simp only [strings.Repeat_space]
  exact strings.Join_indent _ ['\n'] _ (strings.Split_ne_nil s '\n')

/-- C9: for every indent width `i` and input `s`, splitting `templateYAMLIndent i s` on the
newline gives the lines of `s` each behind `i` spaces (so as many lines, and the `k`-th
output line is `i` spaces followed by the `k`-th input line, empty lines and the empty piece
after a trailing newline included), and dropping the first `i` characters of every output
line and rejoining with newlines returns `s`. -/
theorem templateYAMLIndent_reindents (i : Nat) (s : GoString) :
    strings.Split (clc.templateYAMLIndent i s) '\n'
        = (strings.Split s '\n').map (fun l => List.replicate i ' ' ++ l)
    ∧ (strings.Split (clc.templateYAMLIndent i s) '\n').length = (strings.Split s '\n').length
    ∧ (∀ k : Nat, (strings.Split (clc.templateYAMLIndent i s) '\n')[k]?
        = ((strings.Split s '\n')[k]?).map (fun l => List.replicate i ' ' ++ l))
    ∧ strings.Join ((strings.Split (clc.templateYAMLIndent i s) '\n').map (List.drop i))
        "\n".toList = s := by
  have hsplit : strings.Split (clc.templateYAMLIndent i s) '\n'
      = (strings.Split s '\n').map (fun l => List.replicate i ' ' ++ l) := by
    rw [clc.templateYAMLIndent_eq_Join]
    apply strings.Split_Join
    · intro l hl
      obtain ⟨l₀, hl₀, rfl⟩ := List.mem_map.mp hl
      intro hmem
      rcases List.mem_append.mp hmem with h | h
      · have := List.eq_of_mem_replicate h
        exact absurd this (by decide)
      · exact strings.not_mem_of_mem_Split '\n' s l₀ hl₀ h
    · simpa using strings.Split_ne_nil s '\n'
  refine ⟨hsplit, ?_, ?_, ?_⟩
  · rw [hsplit, List.length_map]
  · intro k
    rw [hsplit, List.getElem?_map]
  · rw [hsplit, List.map_map]
    have hid : (List.drop i ∘ fun l : GoString => List.replicate i ' ' ++ l) = id := by
      funext l
      simp [List.drop_append_eq_append_drop]
    rw [hid, List.map_id]
    exact strings.Join_Split s '\n'

/-! ### The rendered source -/

theorem strings.Join_cons (a : GoString) (t : List GoString) (sep : GoString) :
    strings.Join (a :: t) sep = a ++ (t.map (fun l => sep ++ l)).flatten := by
  unfold strings.Join
  induction t generalizing a with
  | nil => simp [List.intercalate]
  | cons b t ih =>
    have := ih b
    simp only [List.intercalate, List.intersperse, List.flatten, List.map] at this ⊢
    rw [this]
    simp [List.append_assoc]

set_option maxRecDepth 100000 in
/-- The text pieces are the texts of `clcTemplate` between its actions, in order. -/
theorem clc.clcTemplate_cut :
    clc.clcTemplate =
      clc.textHead ++ "\x7b\x7b range .WriteFiles \x7d\x7d".toList
      ++ clc.textPath ++ "\x7b\x7b.Path\x7d\x7d".toList
      ++ clc.textBeforeIf ++ "\x7b\x7b if ne .Permissions \"\" -\x7d\x7d".toList
      ++ clc.textMode ++ "\x7b\x7b.Permissions\x7d\x7d".toList
      ++ clc.textAfterMode ++ "\x7b\x7b end -\x7d\x7d".toList
      ++ clc.textContents ++ "\x7b\x7b.Content | Indent 8\x7d\x7d".toList
      ++ clc.textAfterContent ++ "\x7b\x7b- end \x7d\x7d".toList
      ++ clc.textScript ++ "\x7b\x7b- range .PreKubeadmCommands \x7d\x7d".toList
      ++ clc.textBeforeCommand ++ "\x7b\x7b . \x7d\x7d".toList
      ++ clc.textAfterCommand ++ "\x7b\x7b- end \x7d\x7d".toList
      ++ clc.textBeforeKubeadm ++ "\x7b\x7b .KubeadmCommand \x7d\x7d".toList
      ++ clc.textCleanup ++ "\x7b\x7b- range .PostKubeadmCommands \x7d\x7d".toList
      ++ clc.textBeforeCommand ++ "\x7b\x7b . \x7d\x7d".toList
      ++ clc.textAfterCommand ++ "\x7b\x7b- end \x7d\x7d".toList
      ++ clc.textConfig ++ "\x7b\x7b .KubeadmConfig | Indent 8 \x7d\x7d".toList
      ++ clc.textTail := by
  decide

theorem clc.textMode_eq : strings.TrimLeft clc.textMode = "mode: ".toList := by decide

theorem clc.textContents_eq :
    strings.TrimLeft clc.textContents = "contents:\n      inline: |\n".toList := by
  decide

theorem clc.textAfterContent_eq : strings.TrimRight clc.textAfterContent = [] := by decide

theorem clc.textScript_eq : strings.TrimRight clc.textScript =
    ("\n  - path: /etc/kubeadm.sh\n    mode: 0700\n    contents:\n      inline: |\n" ++
     "        #!/bin/bash\n        set -e").toList := by decide

theorem clc.textAfterCommand_eq : strings.TrimRight clc.textAfterCommand = [] := by decide

theorem clc.textCleanup_eq :
    strings.TrimRight clc.textCleanup = "\n        rm /etc/kubeadm.yml".toList := by
  decide

/-- A command of a `range` is written on a line of its own, behind 8 spaces. -/
theorem clc.execCommand_eq (c : GoString) :
    clc.execCommand c = '\n' :: (List.replicate 8 ' ' ++ c) := by
  unfold clc.execCommand
  rw [clc.textAfterCommand_eq]
  simp [clc.textBeforeCommand]

/-- The entry of a write file: the path, the mode when the permissions are not empty, the
content indented by 8. -/
theorem clc.execWriteFile_eq (f : bootstrapv1.File) :
    clc.execWriteFile f = "\n  - path: ".toList ++ f.Path ++
      (if f.Permissions = [] then [] else "\n    mode: ".toList ++ f.Permissions) ++
      "\n    contents:\n      inline: |\n".toList ++ clc.templateYAMLIndent 8 f.Content := by
  unfold clc.execWriteFile
  rw [clc.textAfterContent_eq, clc.textContents_eq, clc.textMode_eq]
  by_cases h : f.Permissions = [] <;>
    simp [h, clc.textPath, clc.textBeforeIf, clc.textAfterMode]

set_option maxRecDepth 8000 in
/-- The rendered source, entry by entry. -/
theorem clc.execTemplate_eq (input : cloudinit.BaseUserData) (kubeadmConfig : GoString) :
    clc.execTemplate input kubeadmConfig =
      clc.textHead ++ (input.WriteFiles.map clc.execWriteFile).flatten ++
      "\n  - path: /etc/kubeadm.sh\n    mode: 0700\n    contents:\n      inline: |\n".toList ++
      strings.Join
        ((["#!/bin/bash".toList, "set -e".toList] ++ input.PreKubeadmCommands).map
          (fun l => List.replicate 8 ' ' ++ l)
        ++ [[]]
        ++ ([input.KubeadmCommand, "rm /etc/kubeadm.yml".toList]
            ++ input.PostKubeadmCommands).map (fun l => List.replicate 8 ' ' ++ l))
        "\n".toList ++
      "\n  - path: /etc/kubeadm.yml\n    mode: 0600\n    contents:\n      inline: |\n".toList ++
      "        ---\n".toList ++ clc.templateYAMLIndent 8 kubeadmConfig ++ "\n".toList := by
  unfold clc.execTemplate
  rw [clc.textScript_eq, clc.textCleanup_eq]
  have hc : clc.execCommand = fun c => '\n' :: (List.replicate 8 ' ' ++ c) :=
    funext clc.execCommand_eq
  rw [hc]
  simp only [List.cons_append, List.nil_append, List.map_cons, strings.Join_cons]
  simp [clc.textBeforeKubeadm, clc.textConfig, clc.textTail, List.map_append, List.map_map,
    Function.comp_def, List.replicate]

/-! ### Validation of the input -/

/-- C1: each of `NewNode`, `NewJoinControlPlane` and `NewInitControlPlane`, called with a nil
input or with a non-nil input whose embedded base input is nil, returns nil data and a
non-nil error, and has called neither the renderer nor the converter (the list of stage
calls is empty), whatever the collaborators are. -/
theorem nil_input_is_rejected (E : Env) :
    ((ignition.NewNode E none).data = none
      ∧ (ignition.NewNode E none).err = some "input can't be nil".toList
      ∧ (ignition.NewNode E none).calls = [])
    ∧ (∀ cfg : Option bootstrapv1.IgnitionConfig,
        (ignition.NewNode E (some ⟨none, cfg⟩)).data = none
        ∧ (ignition.NewNode E (some ⟨none, cfg⟩)).err = some "node input can't be nil".toList
        ∧ (ignition.NewNode E (some ⟨none, cfg⟩)).calls = [])
    ∧ ((ignition.NewJoinControlPlane E none).data = none
      ∧ (ignition.NewJoinControlPlane E none).err = some "input can't be nil".toList
      ∧ (ignition.NewJoinControlPlane E none).calls = [])
    ∧ (∀ cfg : Option bootstrapv1.IgnitionConfig,
        (ignition.NewJoinControlPlane E (some ⟨none, cfg⟩)).data = none
        ∧ (ignition.NewJoinControlPlane E (some ⟨none, cfg⟩)).err
            = some "controlplane join input can't be nil".toList
        ∧ (ignition.NewJoinControlPlane E (some ⟨none, cfg⟩)).calls = [])
    ∧ ((ignition.NewInitControlPlane E none).data = none
      ∧ (ignition.NewInitControlPlane E none).err = some "input can't be nil".toList
      ∧ (ignition.NewInitControlPlane E none).calls = [])
    ∧ (∀ cfg : Option bootstrapv1.IgnitionConfig,
        (ignition.NewInitControlPlane E (some ⟨none, cfg⟩)).data = none
        ∧ (ignition.NewInitControlPlane E (some ⟨none, cfg⟩)).err
            = some "controlplane input can't be nil".toList
        ∧ (ignition.NewInitControlPlane E (some ⟨none, cfg⟩)).calls = []) :=
  ⟨⟨rfl, rfl, rfl⟩, fun _ => ⟨rfl, rfl, rfl⟩, ⟨rfl, rfl, rfl⟩, fun _ => ⟨rfl, rfl, rfl⟩,
    ⟨rfl, rfl, rfl⟩, fun _ => ⟨rfl, rfl, rfl⟩⟩

/-! ### The converter -/

/-- The two checks of `clcToIgnition`, with the results of the parser and of the converter
written as projections. -/
theorem clc.clcToIgnition_eq (E : Env) (data : GoString) :
    clc.clcToIgnition E data =
      if (E.Entries (E.Parse data).2.2).length > 0 ∨ E.IsFatal (E.Parse data).2.2 = true then
        (E.emptyConfig, some ("error parsing Container Linux Config: ".toList
          ++ E.ReportString (E.Parse data).2.2))
      else if (E.Entries (E.Convert (E.Parse data).1 [] (E.Parse data).2.1).2).length > 0
          ∨ E.IsFatal (E.Convert (E.Parse data).1 [] (E.Parse data).2.1).2 = true then
        (E.emptyConfig, some ("error converting to Ignition: ".toList
          ++ E.ReportString (E.Convert (E.Parse data).1 [] (E.Parse data).2.1).2))
      else ((E.Convert (E.Parse data).1 [] (E.Parse data).2.1).1, none) := by
  unfold clc.clcToIgnition
  simp [fmt.Sprintf]

/-- C2: `clcToIgnition` returns an error exactly when the report of the parser has an entry
or is fatal, or the report of the converter (applied to what the parser returned) has an
entry or is fatal. With an error it returns the empty document; without one it returns the
converted document. In particular one entry in a report that is not fatal makes it fail. -/
theorem clcToIgnition_fails_iff_diagnostic (E : Env) (data : GoString) :
    ((clc.clcToIgnition E data).2 ≠ none ↔
        (0 < (E.Entries (E.Parse data).2.2).length ∨ E.IsFatal (E.Parse data).2.2 = true
          ∨ 0 < (E.Entries (E.Convert (E.Parse data).1 [] (E.Parse data).2.1).2).length
          ∨ E.IsFatal (E.Convert (E.Parse data).1 [] (E.Parse data).2.1).2 = true))
    ∧ ((clc.clcToIgnition E data).2 ≠ none → (clc.clcToIgnition E data).1 = E.emptyConfig)
    ∧ ((clc.clcToIgnition E data).2 = none →
        (clc.clcToIgnition E data).1 = (E.Convert (E.Parse data).1 [] (E.Parse data).2.1).1)
    ∧ ((E.Entries (E.Parse data).2.2).length = 1 → E.IsFatal (E.Parse data).2.2 = false →
        (clc.clcToIgnition E data).2 ≠ none)
    ∧ ((E.Entries (E.Convert (E.Parse data).1 [] (E.Parse data).2.1).2).length = 1 →
        E.IsFatal (E.Convert (E.Parse data).1 [] (E.Parse data).2.1).2 = false →
        (clc.clcToIgnition E data).2 ≠ none) := by
  rw [clc.clcToIgnition_eq]
  by_cases h1 : (E.Entries (E.Parse data).2.2).length > 0 ∨ E.IsFatal (E.Parse data).2.2 = true
  · rw [if_pos h1]
    refine ⟨⟨fun _ => ?_, fun _ => by simp⟩, fun _ => rfl, fun h => by simp at h,
      fun _ _ => by simp, fun _ _ => by simp⟩
    rcases h1 with h | h
    · exact Or.inl h
    · exact Or.inr (Or.inl h)
  · rw [if_neg h1]
    have h1a : ¬ 0 < (E.Entries (E.Parse data).2.2).length := fun h => h1 (Or.inl h)
    have h1b : ¬ E.IsFatal (E.Parse data).2.2 = true := fun h => h1 (Or.inr h)
    by_cases h2 : (E.Entries (E.Convert (E.Parse data).1 [] (E.Parse data).2.1).2).length > 0
        ∨ E.IsFatal (E.Convert (E.Parse data).1 [] (E.Parse data).2.1).2 = true
    · rw [if_pos h2]
      refine ⟨⟨fun _ => ?_, fun _ => by simp⟩, fun _ => rfl, fun h => by simp at h,
        fun _ _ => by simp, fun _ _ => by simp⟩
      rcases h2 with h | h
      · exact Or.inr (Or.inr (Or.inl h))
      · exact Or.inr (Or.inr (Or.inr h))
    · rw [if_neg h2]
      have h2a : ¬ 0 < (E.Entries (E.Convert (E.Parse data).1 [] (E.Parse data).2.1).2).length :=
        fun h => h2 (Or.inl h)
      have h2b : ¬ E.IsFatal (E.Convert (E.Parse data).1 [] (E.Parse data).2.1).2 = true :=
        fun h => h2 (Or.inr h)
      refine ⟨⟨fun h => absurd rfl h, fun h => ?_⟩, fun h => absurd rfl h, fun _ => rfl,
        fun h _ => absurd (by omega) h1a, fun h _ => absurd (by omega) h2a⟩
      rcases h with h | h | h | h
      · exact absurd h h1a
      · exact absurd h h1b
      · exact absurd h h2a
      · exact absurd h h2b

/-- Witness of C2: in `exampleEnv` the parser reports one warning, not fatal, on a source
holding a tab character, and `clcToIgnition` fails on it. -/
theorem clcToIgnition_fails_iff_diagnostic_witness :
    (exampleEnv.Entries (exampleEnv.Parse "\t".toList).2.2).length = 1
    ∧ exampleEnv.IsFatal (exampleEnv.Parse "\t".toList).2.2 = false
    ∧ (clc.clcToIgnition exampleEnv "\t".toList).2 ≠ none :=
  ⟨by decide, by decide,
    (clcToIgnition_fails_iff_diagnostic exampleEnv "\t".toList).2.2.2.1 (by decide) (by decide)⟩

/-! ### The merge with the override snippet -/

theorem clc.marshal_calls (E : Env) (ign : E.Config) (calls : List Call) :
    (clc.marshal E ign calls).calls = calls := by
  unfold clc.marshal
  split <;> rfl

/-- The first stage call of `Render` is the rendering of the descriptor it was given. -/
theorem clc.Render_calls (E : Env) (input : cloudinit.BaseUserData)
    (c : bootstrapv1.ContainerLinuxConfig) (kubeadmConfig : GoString) :
    ∃ rest, (clc.Render E input c kubeadmConfig).calls
      = Call.renderCLC input kubeadmConfig :: rest := by
  unfold clc.Render
  simp only [clc.renderCLC]
  split
  · exact ⟨_, rfl⟩
  · split
    · split
      · exact ⟨_, rfl⟩
      · exact ⟨_, clc.marshal_calls _ _ _⟩
    · exact ⟨_, clc.marshal_calls _ _ _⟩

theorem ignition.render_calls (E : Env) (input : cloudinit.BaseUserData)
    (ic : Option bootstrapv1.IgnitionConfig) (kubeadmConfig : GoString) :
    ∃ rest, (ignition.render E input ic kubeadmConfig).calls
      = Call.renderCLC input kubeadmConfig :: rest :=
  clc.Render_calls E input _ kubeadmConfig

theorem ignition.command_eq (sub v : GoString) :
    fmt.Sprintf ignition.kubeadmCommandTemplate [sub, v]
      = "kubeadm ".toList ++ sub ++ " --config /etc/kubeadm.yml ".toList ++ v := by
  simp [fmt.Sprintf, ignition.kubeadmCommandTemplate]

theorem strings.Split_append_sep (X Z : GoString) (x : Char) :
    strings.Split (X ++ x :: Z) x = strings.Split X x ++ strings.Split Z x := by
  unfold strings.Split List.splitOn
  induction X with
  | nil => simp [List.splitOnP_cons]
  | cons c X ih =>
    rw [List.cons_append, List.splitOnP_cons, List.splitOnP_cons, ih]
    by_cases h : (c == x) = true
    · simp [h]
    · rw [if_neg h, if_neg h]
      cases hX : List.splitOnP (fun y => y == x) X with
      | nil => exact absurd hX (List.splitOnP_ne_nil _ _)
      | cons a t => rfl

theorem strings.Split_eq_single (L : GoString) (x : Char) (h : x ∉ L) :
    strings.Split L x = [L] := by
  unfold strings.Split List.splitOn
  apply List.splitOnP_eq_single
  intro y hy hyx
  rw [eq_of_beq hyx] at hy
  exact h hy

/-- A text with no newline that stands between two newlines is a line. -/
theorem strings.mem_Split_of_line (A L Z : GoString) (h : '\n' ∉ L) :
    L ∈ strings.Split (A ++ '\n' :: (L ++ '\n' :: Z)) '\n' := by
  rw [strings.Split_append_sep, strings.Split_append_sep, strings.Split_eq_single L '\n' h]
  simp

set_option maxRecDepth 8000 in
/-- The rendered source holds the command of the descriptor in the inline block of
`/etc/kubeadm.sh`: after the header of that entry and the pre-commands (`P`) there is an empty
line, then the command behind 8 spaces, then the line that removes `/etc/kubeadm.yml`, the
post-commands (`Q`) and the entry of `/etc/kubeadm.yml`. -/
theorem clc.execTemplate_command (d : cloudinit.BaseUserData) (kubeadmConfig : GoString) :
    ∃ A P Q Z : GoString, clc.execTemplate d kubeadmConfig =
      A ++ ("\n  - path: /etc/kubeadm.sh\n    mode: 0700\n    contents:\n      inline: |\n" ++
            "        #!/bin/bash\n        set -e").toList ++ P ++ "\n".toList
        ++ '\n' :: ((List.replicate 8 ' ' ++ d.KubeadmCommand)
        ++ '\n' :: ("        rm /etc/kubeadm.yml".toList ++ Q
        ++ "\n  - path: /etc/kubeadm.yml\n    mode: 0600\n".toList ++ Z)) := by
  refine ⟨clc.textHead ++ (d.WriteFiles.map clc.execWriteFile).flatten,
    (d.PreKubeadmCommands.map clc.execCommand).flatten,
    (d.PostKubeadmCommands.map clc.execCommand).flatten,
    "    contents:\n      inline: |\n        ---\n".toList
      ++ clc.templateYAMLIndent 8 kubeadmConfig ++ "\n".toList, ?_⟩
  unfold clc.execTemplate
  rw [clc.textScript_eq, clc.textCleanup_eq]
  simp [clc.textBeforeKubeadm, clc.textConfig, clc.textTail, List.replicate]

/-- A command with no newline is, behind 8 spaces, a line of the rendered source. -/
theorem clc.command_mem_lines (d : cloudinit.BaseUserData) (cfg : GoString)
    (hn : '\n' ∉ d.KubeadmCommand) :
    List.replicate 8 ' ' ++ d.KubeadmCommand ∈ strings.Split (clc.execTemplate d cfg) '\n' := by
  obtain ⟨A, P, Q, Z, h⟩ := clc.execTemplate_command d cfg
  rw [h]
  refine strings.mem_Split_of_line _ _ _ ?_
  intro hmem
  rcases List.mem_append.mp hmem with h' | h'
  · exact absurd (List.eq_of_mem_replicate h') (by decide)
  · exact hn h'

theorem ignition.command_no_newline (sub v : GoString) (hs : '\n' ∉ sub) (hv : '\n' ∉ v) :
    '\n' ∉ fmt.Sprintf ignition.kubeadmCommandTemplate [sub, v] := by
  rw [ignition.command_eq]
  intro hmem
  rcases List.mem_append.mp hmem with h | h
  · rcases List.mem_append.mp h with h | h
    · rcases List.mem_append.mp h with h | h
      · exact absurd h (by decide)
      · exact hs h
    · exact absurd h (by decide)
  · exact hv h

set_option maxRecDepth 100000 in
/-- Counterexample to C4: `NewNode` in `exampleEnv` on a valid input whose verbosity is
`--v 2`, a newline, `echo injected`. The renderer is handed the join command followed by that
verbosity and returns the source; the command is not a line of that source, neither behind
8 spaces nor as it is: the source holds the two lines `kubeadm join ... --v 2`, behind 8
spaces, and `echo injected`, at the start of the line. -/
theorem role_command_not_a_line :
    exampleInjectedInput.NodeInput.map (fun b => b.KubeadmVerbosity)
      = some "--v 2\necho injected".toList
    ∧ (ignition.NewNode exampleEnv (some exampleInjectedInput)).calls.head?
      = some (Call.renderCLC
          { exampleBase [] [] with
            KubeadmVerbosity := "--v 2\necho injected".toList,
            KubeadmCommand :=
              "kubeadm join --config /etc/kubeadm.yml --v 2\necho injected".toList }
          "kind: JoinConfiguration".toList)
    ∧ "        kubeadm join --config /etc/kubeadm.yml --v 2\necho injected".toList ∉
        strings.Split (clc.execTemplate
          { exampleBase [] [] with
            KubeadmVerbosity := "--v 2\necho injected".toList,
            KubeadmCommand :=
              "kubeadm join --config /etc/kubeadm.yml --v 2\necho injected".toList }
          "kind: JoinConfiguration".toList) '\n'
    ∧ "kubeadm join --config /etc/kubeadm.yml --v 2\necho injected".toList ∉
        strings.Split (clc.execTemplate
          { exampleBase [] [] with
            KubeadmVerbosity := "--v 2\necho injected".toList,
            KubeadmCommand :=
              "kubeadm join --config /etc/kubeadm.yml --v 2\necho injected".toList }
          "kind: JoinConfiguration".toList) '\n'
    ∧ "        kubeadm join --config /etc/kubeadm.yml --v 2".toList ∈
        strings.Split (clc.execTemplate
          { exampleBase [] [] with
            KubeadmVerbosity := "--v 2\necho injected".toList,
            KubeadmCommand :=
              "kubeadm join --config /etc/kubeadm.yml --v 2\necho injected".toList }
          "kind: JoinConfiguration".toList) '\n'
    ∧ "echo injected".toList ∈
        strings.Split (clc.execTemplate
          { exampleBase [] [] with
            KubeadmVerbosity := "--v 2\necho injected".toList,
            KubeadmCommand :=
              "kubeadm join --config /etc/kubeadm.yml --v 2\necho injected".toList }
          "kind: JoinConfiguration".toList) '\n' := by
  refine ⟨by decide, by decide, by decide, by decide, by decide, by decide⟩

/-- C4, amended: for every valid input with verbosity `v`, the first stage call of `NewNode`
and of `NewJoinControlPlane` renders a descriptor whose command is
`kubeadm join --config /etc/kubeadm.yml ` followed by `v`, and that of `NewInitControlPlane`
one whose command is `kubeadm init --config /etc/kubeadm.yml ` followed by `v`; the renderer
returns the source of that descriptor, and when `v` holds no newline that command, behind
the 8 spaces of the block, is a line of the source. For every descriptor the command stands
in the script of `/etc/kubeadm.sh`: the lines of the source are the lines up to the empty
line after the pre-commands, the lines of the command behind 8 spaces, and the lines from
`rm /etc/kubeadm.yml` on. The init command differs from the join command, for all
verbosities. -/
theorem role_command (E : Env) :
    (∀ (input : ignition.NodeInput) (base : cloudinit.NodeInput),
        input.NodeInput = some base →
        ∃ d cfg rest, (ignition.NewNode E (some input)).calls = Call.renderCLC d cfg :: rest
          ∧ d.KubeadmCommand
              = "kubeadm join --config /etc/kubeadm.yml ".toList ++ base.KubeadmVerbosity
          ∧ clc.renderCLC d cfg = (some (clc.execTemplate d cfg), none)
          ∧ ('\n' ∉ base.KubeadmVerbosity →
              List.replicate 8 ' '
                  ++ ("kubeadm join --config /etc/kubeadm.yml ".toList ++ base.KubeadmVerbosity)
                ∈ strings.Split (clc.execTemplate d cfg) '\n'))
    ∧ (∀ (input : ignition.ControlPlaneJoinInput E.Certificates)
        (base : cloudinit.ControlPlaneJoinInput E.Certificates),
        input.ControlPlaneJoinInput = some base →
        ∃ d cfg rest,
          (ignition.NewJoinControlPlane E (some input)).calls = Call.renderCLC d cfg :: rest
          ∧ d.KubeadmCommand
              = "kubeadm join --config /etc/kubeadm.yml ".toList ++ base.KubeadmVerbosity
          ∧ clc.renderCLC d cfg = (some (clc.execTemplate d cfg), none)
          ∧ ('\n' ∉ base.KubeadmVerbosity →
              List.replicate 8 ' '
                  ++ ("kubeadm join --config /etc/kubeadm.yml ".toList ++ base.KubeadmVerbosity)
                ∈ strings.Split (clc.execTemplate d cfg) '\n'))
    ∧ (∀ (input : ignition.ControlPlaneInput E.Certificates)
        (base : cloudinit.ControlPlaneInput E.Certificates),
        input.ControlPlaneInput = some base →
        ∃ d cfg rest,
          (ignition.NewInitControlPlane E (some input)).calls = Call.renderCLC d cfg :: rest
          ∧ d.KubeadmCommand
              = "kubeadm init --config /etc/kubeadm.yml ".toList ++ base.KubeadmVerbosity
          ∧ clc.renderCLC d cfg = (some (clc.execTemplate d cfg), none)
          ∧ ('\n' ∉ base.KubeadmVerbosity →
              List.replicate 8 ' '
                  ++ ("kubeadm init --config /etc/kubeadm.yml ".toList ++ base.KubeadmVerbosity)
                ∈ strings.Split (clc.execTemplate d cfg) '\n'))
    ∧ (∀ (d : cloudinit.BaseUserData) (cfg : GoString),
        ∃ A P Q Z : GoString, clc.execTemplate d cfg =
            A ++ ("\n  - path: /etc/kubeadm.sh\n    mode: 0700\n    contents:\n" ++
                  "      inline: |\n        #!/bin/bash\n        set -e").toList ++ P
              ++ "\n".toList
              ++ '\n' :: ((List.replicate 8 ' ' ++ d.KubeadmCommand)
              ++ '\n' :: ("        rm /etc/kubeadm.yml".toList ++ Q
              ++ "\n  - path: /etc/kubeadm.yml\n    mode: 0600\n".toList ++ Z))
          ∧ strings.Split (clc.execTemplate d cfg) '\n' =
            strings.Split (A ++ ("\n  - path: /etc/kubeadm.sh\n    mode: 0700\n    contents:\n" ++
                "      inline: |\n        #!/bin/bash\n        set -e").toList
                ++ P ++ "\n".toList) '\n'
              ++ strings.Split (List.replicate 8 ' ' ++ d.KubeadmCommand) '\n'
              ++ strings.Split ("        rm /etc/kubeadm.yml".toList ++ Q
                ++ "\n  - path: /etc/kubeadm.yml\n    mode: 0600\n".toList ++ Z) '\n')
    ∧ (∀ v w : GoString, "kubeadm init --config /etc/kubeadm.yml ".toList ++ v
        ≠ "kubeadm join --config /etc/kubeadm.yml ".toList ++ w) := by
  refine ⟨?_, ?_, ?_, ?_, ?_⟩
  · intro input base hb
    obtain ⟨rest, hr⟩ := ignition.render_calls E
      { base.toBaseUserData with
        WriteFiles := base.WriteFiles ++ base.AdditionalFiles,
        KubeadmCommand := fmt.Sprintf ignition.kubeadmCommandTemplate
          [ignition.joinSubcommand, base.KubeadmVerbosity] }
      input.IgnitionConfig base.JoinConfiguration
    refine ⟨{ base.toBaseUserData with
        WriteFiles := base.WriteFiles ++ base.AdditionalFiles,
        KubeadmCommand := fmt.Sprintf ignition.kubeadmCommandTemplate
          [ignition.joinSubcommand, base.KubeadmVerbosity] }, base.JoinConfiguration, rest,
      ?_, ?_, rfl, ?_⟩
    · simp only [ignition.NewNode, hb]
      exact hr
    · simp [ignition.command_eq, ignition.joinSubcommand]
    · intro hv
      have hc := clc.command_mem_lines
        { base.toBaseUserData with
          WriteFiles := base.WriteFiles ++ base.AdditionalFiles,
          KubeadmCommand := fmt.Sprintf ignition.kubeadmCommandTemplate
            [ignition.joinSubcommand, base.KubeadmVerbosity] } base.JoinConfiguration
        (ignition.command_no_newline _ _ (by decide) hv)
      simpa [ignition.command_eq, ignition.joinSubcommand] using hc
  · intro input base hb
    obtain ⟨rest, hr⟩ := ignition.render_calls E
      { base.toBaseUserData with
        WriteFiles := E.AsFiles base.Certificates ++ base.AdditionalFiles,
        KubeadmCommand := fmt.Sprintf ignition.kubeadmCommandTemplate
          [ignition.joinSubcommand, base.KubeadmVerbosity] }
      input.IgnitionConfig base.JoinConfiguration
    refine ⟨{ base.toBaseUserData with
        WriteFiles := E.AsFiles base.Certificates ++ base.AdditionalFiles,
        KubeadmCommand := fmt.Sprintf ignition.kubeadmCommandTemplate
          [ignition.joinSubcommand, base.KubeadmVerbosity] }, base.JoinConfiguration, rest,
      ?_, ?_, rfl, ?_⟩
    · simp only [ignition.NewJoinControlPlane, hb]
      exact hr
    · simp [ignition.command_eq, ignition.joinSubcommand]
    · intro hv
      have hc := clc.command_mem_lines
        { base.toBaseUserData with
          WriteFiles := E.AsFiles base.Certificates ++ base.AdditionalFiles,
          KubeadmCommand := fmt.Sprintf ignition.kubeadmCommandTemplate
            [ignition.joinSubcommand, base.KubeadmVerbosity] } base.JoinConfiguration
        (ignition.command_no_newline _ _ (by decide) hv)
      simpa [ignition.command_eq, ignition.joinSubcommand] using hc
  · intro input base hb
    obtain ⟨rest, hr⟩ := ignition.render_calls E
      { base.toBaseUserData with
        WriteFiles := E.AsFiles base.Certificates ++ base.AdditionalFiles,
        KubeadmCommand := fmt.Sprintf ignition.kubeadmCommandTemplate
          [ignition.initSubcommand, base.KubeadmVerbosity] }
      input.IgnitionConfig
      (fmt.Sprintf "%s\n---\n%s".toList [base.ClusterConfiguration, base.InitConfiguration])
    refine ⟨{ base.toBaseUserData with
        WriteFiles := E.AsFiles base.Certificates ++ base.AdditionalFiles,
        KubeadmCommand := fmt.Sprintf ignition.kubeadmCommandTemplate
          [ignition.initSubcommand, base.KubeadmVerbosity] },
      fmt.Sprintf "%s\n---\n%s".toList [base.ClusterConfiguration, base.InitConfiguration],
      rest, ?_, ?_, rfl, ?_⟩
    · simp only [ignition.NewInitControlPlane, hb]
      exact hr
    · simp [ignition.command_eq, ignition.initSubcommand]
    · intro hv
      have hc := clc.command_mem_lines
        { base.toBaseUserData with
          WriteFiles := E.AsFiles base.Certificates ++ base.AdditionalFiles,
          KubeadmCommand := fmt.Sprintf ignition.kubeadmCommandTemplate
            [ignition.initSubcommand, base.KubeadmVerbosity] }
        (fmt.Sprintf "%s\n---\n%s".toList [base.ClusterConfiguration, base.InitConfiguration])
        (ignition.command_no_newline _ _ (by decide) hv)
      simpa [ignition.command_eq, ignition.initSubcommand] using hc
  · intro d cfg
    obtain ⟨A, P, Q, Z, h⟩ := clc.execTemplate_command d cfg
    refine ⟨A, P, Q, Z, h, ?_⟩
    rw [h, strings.Split_append_sep, strings.Split_append_sep]
    simp only [List.append_assoc]
    rfl
  · intro v w
    simp

set_option maxRecDepth 100000 in
/-- Witness of C4, amended: the join-worker input with verbosity `--v 2` in `exampleEnv`; the
verbosity has no newline and the join command behind 8 spaces is a line of the source
rendered by the first stage call. -/
theorem role_command_witness :
    (exampleNodeInput [] []).NodeInput.map (fun b => b.KubeadmVerbosity) = some "--v 2".toList
    ∧ '\n' ∉ "--v 2".toList
    ∧ ∃ d cfg rest,
      (ignition.NewNode exampleEnv (some (exampleNodeInput [] []))).calls
        = Call.renderCLC d cfg :: rest
      ∧ d.KubeadmCommand = "kubeadm join --config /etc/kubeadm.yml --v 2".toList
      ∧ "        kubeadm join --config /etc/kubeadm.yml --v 2".toList
          ∈ strings.Split (clc.execTemplate d cfg) '\n' := by
  refine ⟨rfl, by decide, ?_⟩
  obtain ⟨d, cfg, rest, h1, h2, _, h4⟩ := (role_command exampleEnv).1 (exampleNodeInput [] [])
    { toBaseUserData := exampleBase [] [],
      JoinConfiguration := "kind: JoinConfiguration".toList } rfl
  exact ⟨d, cfg, rest, h1, h2, h4 (by decide)⟩

theorem ignition.NewNode_calls (E : Env) (input : ignition.NodeInput)
    (base : cloudinit.NodeInput) (hb : input.NodeInput = some base) :
    ∃ rest, (ignition.NewNode E (some input)).calls
      = Call.renderCLC
          { base.toBaseUserData with
            WriteFiles := base.WriteFiles ++ base.AdditionalFiles,
            KubeadmCommand := fmt.Sprintf ignition.kubeadmCommandTemplate
              [ignition.joinSubcommand, base.KubeadmVerbosity] }
          base.JoinConfiguration :: rest := by
  simp only [ignition.NewNode, hb]
  exact ignition.render_calls E _ _ _

theorem ignition.NewJoinControlPlane_calls (E : Env)
    (input : ignition.ControlPlaneJoinInput E.Certificates)
    (base : cloudinit.ControlPlaneJoinInput E.Certificates)
    (hb : input.ControlPlaneJoinInput = some base) :
    ∃ rest, (ignition.NewJoinControlPlane E (some input)).calls
      = Call.renderCLC
          { base.toBaseUserData with
            WriteFiles := E.AsFiles base.Certificates ++ base.AdditionalFiles,
            KubeadmCommand := fmt.Sprintf ignition.kubeadmCommandTemplate
              [ignition.joinSubcommand, base.KubeadmVerbosity] }
          base.JoinConfiguration :: rest := by
  simp only [ignition.NewJoinControlPlane, hb]
  exact ignition.render_calls E _ _ _

theorem ignition.NewInitControlPlane_calls (E : Env)
    (input : ignition.ControlPlaneInput E.Certificates)
    (base : cloudinit.ControlPlaneInput E.Certificates)
    (hb : input.ControlPlaneInput = some base) :
    ∃ rest, (ignition.NewInitControlPlane E (some input)).calls
      = Call.renderCLC
          { base.toBaseUserData with
            WriteFiles := E.AsFiles base.Certificates ++ base.AdditionalFiles,
            KubeadmCommand := fmt.Sprintf ignition.kubeadmCommandTemplate
              [ignition.initSubcommand, base.KubeadmVerbosity] }
          (fmt.Sprintf "%s\n---\n%s".toList [base.ClusterConfiguration, base.InitConfiguration])
          :: rest := by
  simp only [ignition.NewInitControlPlane, hb]
  exact ignition.render_calls E _ _ _

/-- C5: for every valid input the descriptor rendered by the first stage call has as write
files, for `NewNode`, the write files of the base descriptor followed by the extra files,
and for `NewJoinControlPlane` and `NewInitControlPlane` the files of `Certificates.AsFiles()`
followed by the extra files: the list is the concatenation, so its length is the sum of the
two lengths, its first part and its second part are the two lists in their order, and no
entry is dropped. -/
theorem write_files_of_role (E : Env) :
    (∀ (input : ignition.NodeInput) (base : cloudinit.NodeInput),
        input.NodeInput = some base →
        ∃ d cfg rest, (ignition.NewNode E (some input)).calls = Call.renderCLC d cfg :: rest
          ∧ d.WriteFiles = base.WriteFiles ++ base.AdditionalFiles
          ∧ d.WriteFiles.length = base.WriteFiles.length + base.AdditionalFiles.length
          ∧ d.WriteFiles.take base.WriteFiles.length = base.WriteFiles
          ∧ d.WriteFiles.drop base.WriteFiles.length = base.AdditionalFiles)
    ∧ (∀ (input : ignition.ControlPlaneJoinInput E.Certificates)
        (base : cloudinit.ControlPlaneJoinInput E.Certificates),
        input.ControlPlaneJoinInput = some base →
        ∃ d cfg rest,
          (ignition.NewJoinControlPlane E (some input)).calls = Call.renderCLC d cfg :: rest
          ∧ d.WriteFiles = E.AsFiles base.Certificates ++ base.AdditionalFiles
          ∧ d.WriteFiles.length
              = (E.AsFiles base.Certificates).length + base.AdditionalFiles.length
          ∧ d.WriteFiles.take (E.AsFiles base.Certificates).length = E.AsFiles base.Certificates
          ∧ d.WriteFiles.drop (E.AsFiles base.Certificates).length = base.AdditionalFiles)
    ∧ (∀ (input : ignition.ControlPlaneInput E.Certificates)
        (base : cloudinit.ControlPlaneInput E.Certificates),
        input.ControlPlaneInput = some base →
        ∃ d cfg rest,
          (ignition.NewInitControlPlane E (some input)).calls = Call.renderCLC d cfg :: rest
          ∧ d.WriteFiles = E.AsFiles base.Certificates ++ base.AdditionalFiles
          ∧ d.WriteFiles.length
              = (E.AsFiles base.Certificates).length + base.AdditionalFiles.length
          ∧ d.WriteFiles.take (E.AsFiles base.Certificates).length = E.AsFiles base.Certificates
          ∧ d.WriteFiles.drop (E.AsFiles base.Certificates).length = base.AdditionalFiles) := by
  refine ⟨?_, ?_, ?_⟩
  · intro input base hb
    obtain ⟨rest, hr⟩ := ignition.NewNode_calls E input base hb
    exact ⟨_, _, rest, hr, rfl, List.length_append _ _, List.take_left' rfl,
      List.drop_left' rfl⟩
  · intro input base hb
    obtain ⟨rest, hr⟩ := ignition.NewJoinControlPlane_calls E input base hb
    exact ⟨_, _, rest, hr, rfl, List.length_append _ _, List.take_left' rfl,
      List.drop_left' rfl⟩
  · intro input base hb
    obtain ⟨rest, hr⟩ := ignition.NewInitControlPlane_calls E input base hb
    exact ⟨_, _, rest, hr, rfl, List.length_append _ _, List.take_left' rfl,
      List.drop_left' rfl⟩

/-- Witness of C5: a join-worker input with one write file and one extra file, both at the
same path; the renderer is handed both. -/
theorem write_files_of_role_witness :
    ∃ d cfg rest,
      (ignition.NewNode exampleEnv (some (exampleNodeInput [exampleFile] [exampleFile]))).calls
        = Call.renderCLC d cfg :: rest
      ∧ d.WriteFiles = [exampleFile, exampleFile] := by
  obtain ⟨d, cfg, rest, h, hw, _⟩ := (write_files_of_role exampleEnv).1
    (exampleNodeInput [exampleFile] [exampleFile]) _ rfl
  exact ⟨d, cfg, rest, h, hw⟩

/-! ### Join-control-plane against join-worker -/

set_option maxRecDepth 100000 in
/-- Counterexample to C6: in `exampleEnv`, a join-worker input and a join-control-plane input
with the same base descriptor (one write file, no extra files, no commands, the same
verbosity), the same join configuration and no override, and certificates that yield no
files. Both calls succeed and their outputs differ: `NewJoinControlPlane` replaces the write
files of the descriptor by the files of the certificates. -/
theorem join_control_plane_differs_from_node :
    (exampleJoinInput [exampleFile] [] []).ControlPlaneJoinInput.map
        (fun b => (b.toBaseUserData, b.JoinConfiguration))
      = (exampleNodeInput [exampleFile] []).NodeInput.map
        (fun b => (b.toBaseUserData, b.JoinConfiguration))
    ∧ (exampleJoinInput [exampleFile] [] []).IgnitionConfig
      = (exampleNodeInput [exampleFile] []).IgnitionConfig
    ∧ (exampleJoinInput [exampleFile] [] []).ControlPlaneJoinInput.map
        (fun b => exampleEnv.AsFiles b.Certificates) = some []
    ∧ (ignition.NewJoinControlPlane exampleEnv (some (exampleJoinInput [exampleFile] [] []))).err
      = none
    ∧ (ignition.NewNode exampleEnv (some (exampleNodeInput [exampleFile] []))).err = none
    ∧ (ignition.NewJoinControlPlane exampleEnv (some (exampleJoinInput [exampleFile] [] []))).data
      ≠ (ignition.NewNode exampleEnv (some (exampleNodeInput [exampleFile] []))).data := by
  refine ⟨by decide, by decide, rfl, by decide, by decide, by decide⟩

/-- C6, amended: a join-worker input and a join-control-plane input with the same
pre-commands, post-commands, verbosity, extra files, join configuration and Ignition
configuration, where the certificates yield no files and the write files of the join-worker
descriptor are empty: `NewJoinControlPlane` returns the same data, the same error and makes
the same stage calls as `NewNode`. -/
theorem join_control_plane_eq_node (E : Env) (n : cloudinit.NodeInput)
    (j : cloudinit.ControlPlaneJoinInput E.Certificates)
    (ic : Option bootstrapv1.IgnitionConfig)
    (hpre : j.PreKubeadmCommands = n.PreKubeadmCommands)
    (hpost : j.PostKubeadmCommands = n.PostKubeadmCommands)
    (hv : j.KubeadmVerbosity = n.KubeadmVerbosity)
    (hadd : j.AdditionalFiles = n.AdditionalFiles)
    (hcfg : j.JoinConfiguration = n.JoinConfiguration)
    (hcert : E.AsFiles j.Certificates = [])
    (hw : n.WriteFiles = []) :
    (ignition.NewJoinControlPlane E (some ⟨some j, ic⟩)).data
      = (ignition.NewNode E (some ⟨some n, ic⟩)).data
    ∧ (ignition.NewJoinControlPlane E (some ⟨some j, ic⟩)).err
      = (ignition.NewNode E (some ⟨some n, ic⟩)).err
    ∧ (ignition.NewJoinControlPlane E (some ⟨some j, ic⟩)).calls
      = (ignition.NewNode E (some ⟨some n, ic⟩)).calls := by
  obtain ⟨⟨pre, post, add, wf, cmd, v⟩, cfg⟩ := n
  obtain ⟨⟨pre', post', add', wf', cmd', v'⟩, certs, cfg'⟩ := j
  simp only at hpre hpost hv hadd hcfg hcert hw
  subst hpre hpost hv hadd hcfg hw
  simp [ignition.NewJoinControlPlane, ignition.NewNode, hcert]

/-- Witness of C6, amended: the two inputs of `exampleEnv` with no write files, one extra
file and no certificates. -/
theorem join_control_plane_eq_node_witness :
    (ignition.NewJoinControlPlane exampleEnv
        (some (exampleJoinInput [] [exampleFile] []))).data
      = (ignition.NewNode exampleEnv (some (exampleNodeInput [] [exampleFile]))).data :=
  (join_control_plane_eq_node exampleEnv
    { toBaseUserData := exampleBase [] [exampleFile],
      JoinConfiguration := "kind: JoinConfiguration".toList }
    { toBaseUserData := exampleBase [] [exampleFile], Certificates := [],
      JoinConfiguration := "kind: JoinConfiguration".toList }
    none rfl rfl rfl rfl rfl rfl rfl).1

/-! ### The input after the call -/

set_option maxRecDepth 100000 in
/-- Counterexample to C7: `NewNode` in `exampleEnv` on a valid input with no write files, one
extra file and an empty command. After the call the write files of the caller's descriptor
hold the extra file and its command is the join command, so the input has changed. -/
theorem new_node_changes_descriptor :
    (exampleNodeInput [] [exampleFile]).NodeInput.map (fun b => b.WriteFiles) = some []
    ∧ ((ignition.NewNode exampleEnv (some (exampleNodeInput [] [exampleFile]))).input.bind
        (fun i => i.NodeInput)).map (fun b => b.WriteFiles) = some [exampleFile]
    ∧ (exampleNodeInput [] [exampleFile]).NodeInput.map (fun b => b.KubeadmCommand) = some []
    ∧ ((ignition.NewNode exampleEnv (some (exampleNodeInput [] [exampleFile]))).input.bind
        (fun i => i.NodeInput)).map (fun b => b.KubeadmCommand)
        = some "kubeadm join --config /etc/kubeadm.yml --v 2".toList
    ∧ (ignition.NewNode exampleEnv (some (exampleNodeInput [] [exampleFile]))).input
        ≠ some (exampleNodeInput [] [exampleFile]) := by
  refine ⟨by decide, by decide, by decide, by decide, by decide⟩

/-- C7, amended: for every valid input, after the call the input holds the same Ignition
configuration and a base input whose fields other than `WriteFiles` and `KubeadmCommand` have
the value they had before the call (pre-commands, post-commands, extra files, verbosity, and
the fields of the role: join configuration, certificates, cluster and init configuration).
`KubeadmCommand` is the command of the role, and `WriteFiles` is the former write files
followed by the extra files (`NewNode`) or the files of the certificates followed by the
extra files (`NewJoinControlPlane`, `NewInitControlPlane`). -/
theorem descriptor_after_call (E : Env) :
    (∀ (base : cloudinit.NodeInput) (ic : Option bootstrapv1.IgnitionConfig),
      ∃ after : cloudinit.NodeInput,
        (ignition.NewNode E (some ⟨some base, ic⟩)).input = some ⟨some after, ic⟩
        ∧ after.PreKubeadmCommands = base.PreKubeadmCommands
        ∧ after.PostKubeadmCommands = base.PostKubeadmCommands
        ∧ after.AdditionalFiles = base.AdditionalFiles
        ∧ after.KubeadmVerbosity = base.KubeadmVerbosity
        ∧ after.JoinConfiguration = base.JoinConfiguration
        ∧ after.WriteFiles = base.WriteFiles ++ base.AdditionalFiles
        ∧ after.KubeadmCommand
            = "kubeadm join --config /etc/kubeadm.yml ".toList ++ base.KubeadmVerbosity)
    ∧ (∀ (base : cloudinit.ControlPlaneJoinInput E.Certificates)
        (ic : Option bootstrapv1.IgnitionConfig),
      ∃ after : cloudinit.ControlPlaneJoinInput E.Certificates,
        (ignition.NewJoinControlPlane E (some ⟨some base, ic⟩)).input = some ⟨some after, ic⟩
        ∧ after.PreKubeadmCommands = base.PreKubeadmCommands
        ∧ after.PostKubeadmCommands = base.PostKubeadmCommands
        ∧ after.AdditionalFiles = base.AdditionalFiles
        ∧ after.KubeadmVerbosity = base.KubeadmVerbosity
        ∧ after.Certificates = base.Certificates
        ∧ after.JoinConfiguration = base.JoinConfiguration
        ∧ after.WriteFiles = E.AsFiles base.Certificates ++ base.AdditionalFiles
        ∧ after.KubeadmCommand
            = "kubeadm join --config /etc/kubeadm.yml ".toList ++ base.KubeadmVerbosity)
    ∧ (∀ (base : cloudinit.ControlPlaneInput E.Certificates)
        (ic : Option bootstrapv1.IgnitionConfig),
      ∃ after : cloudinit.ControlPlaneInput E.Certificates,
        (ignition.NewInitControlPlane E (some ⟨some base, ic⟩)).input = some ⟨some after, ic⟩
        ∧ after.PreKubeadmCommands = base.PreKubeadmCommands
        ∧ after.PostKubeadmCommands = base.PostKubeadmCommands
        ∧ after.AdditionalFiles = base.AdditionalFiles
        ∧ after.KubeadmVerbosity = base.KubeadmVerbosity
        ∧ after.Certificates = base.Certificates
        ∧ after.ClusterConfiguration = base.ClusterConfiguration
        ∧ after.InitConfiguration = base.InitConfiguration
        ∧ after.WriteFiles = E.AsFiles base.Certificates ++ base.AdditionalFiles
        ∧ after.KubeadmCommand
            = "kubeadm init --config /etc/kubeadm.yml ".toList ++ base.KubeadmVerbosity) := by
  refine ⟨?_, ?_, ?_⟩
  · intro base ic
    refine ⟨_, rfl, rfl, rfl, rfl, rfl, rfl, rfl, ?_⟩
    simp [ignition.command_eq, ignition.joinSubcommand]
  · intro base ic
    refine ⟨_, rfl, rfl, rfl, rfl, rfl, rfl, rfl, rfl, ?_⟩
    simp [ignition.command_eq, ignition.joinSubcommand]
  · intro base ic
    refine ⟨_, rfl, rfl, rfl, rfl, rfl, rfl, rfl, rfl, rfl, ?_⟩
    simp [ignition.command_eq, ignition.initSubcommand]

/-! ### Repeated invocation -/

set_option maxRecDepth 100000 in
/-- Counterexample to C8: `NewNode` in `exampleEnv`, called twice in succession on the same
valid input with one extra file. Both calls succeed; the second call starts from the input
as the first call left it and returns other data, the extra file being rendered twice. -/
theorem new_node_twice_differs :
    (ignition.NewNode exampleEnv (some (exampleNodeInput [] [exampleFile]))).err = none
    ∧ (ignition.NewNode exampleEnv
        (ignition.NewNode exampleEnv (some (exampleNodeInput [] [exampleFile]))).input).err
      = none
    ∧ (ignition.NewNode exampleEnv
        (ignition.NewNode exampleEnv (some (exampleNodeInput [] [exampleFile]))).input).data
      ≠ (ignition.NewNode exampleEnv (some (exampleNodeInput [] [exampleFile]))).data := by
  refine ⟨by decide, by decide, by decide⟩

/-- C8, amended: `NewJoinControlPlane` and `NewInitControlPlane`, called twice in succession
on the same input (the second call starting from the input as the first call left it),
return the same data and the same error both times, for every input and every override
snippet; so does `NewNode` on every input whose extra files are empty. -/
theorem repeated_invocation (E : Env) :
    (∀ input : Option (ignition.ControlPlaneJoinInput E.Certificates),
      (ignition.NewJoinControlPlane E (ignition.NewJoinControlPlane E input).input).data
        = (ignition.NewJoinControlPlane E input).data
      ∧ (ignition.NewJoinControlPlane E (ignition.NewJoinControlPlane E input).input).err
        = (ignition.NewJoinControlPlane E input).err)
    ∧ (∀ input : Option (ignition.ControlPlaneInput E.Certificates),
      (ignition.NewInitControlPlane E (ignition.NewInitControlPlane E input).input).data
        = (ignition.NewInitControlPlane E input).data
      ∧ (ignition.NewInitControlPlane E (ignition.NewInitControlPlane E input).input).err
        = (ignition.NewInitControlPlane E input).err)
    ∧ (∀ input : Option ignition.NodeInput,
      (∀ base, input.bind (fun i => i.NodeInput) = some base → base.AdditionalFiles = []) →
      (ignition.NewNode E (ignition.NewNode E input).input).data = (ignition.NewNode E input).data
      ∧ (ignition.NewNode E (ignition.NewNode E input).input).err
        = (ignition.NewNode E input).err) := by
  refine ⟨?_, ?_, ?_⟩
  · intro input
    rcases input with _ | ⟨_ | base, ic⟩
    · exact ⟨rfl, rfl⟩
    · exact ⟨rfl, rfl⟩
    · exact ⟨rfl, rfl⟩
  · intro input
    rcases input with _ | ⟨_ | base, ic⟩
    · exact ⟨rfl, rfl⟩
    · exact ⟨rfl, rfl⟩
    · exact ⟨rfl, rfl⟩
  · intro input h
    rcases input with _ | ⟨_ | base, ic⟩
    · exact ⟨rfl, rfl⟩
    · exact ⟨rfl, rfl⟩
    · have hadd : base.AdditionalFiles = [] := h base rfl
      simp [ignition.NewNode, hadd]

/-- Witness of C8, amended: `NewNode` in `exampleEnv` on the input with one write file and no
extra files returns the same data at the second call. -/
theorem repeated_invocation_witness :
    (ignition.NewNode exampleEnv
        (ignition.NewNode exampleEnv (some (exampleNodeInput [exampleFile] []))).input).data
      = (ignition.NewNode exampleEnv (some (exampleNodeInput [exampleFile] []))).data :=
  ((repeated_invocation exampleEnv).2.2 (some (exampleNodeInput [exampleFile] []))
    (by intro base h; cases h; rfl)).1

/-! ### The first-boot script -/

/-- C10: for a descriptor whose pre-commands, post-commands and command hold no newline, the
source returned by `renderCLC` is, in this order: the fixed head, the entries of the write
files in list order (each starting with its path), the entry with path `/etc/kubeadm.sh` and
mode `0700`, and the entry with path `/etc/kubeadm.yml` and mode `0600` right after it. The
inline block of the `/etc/kubeadm.sh` entry splits on newlines into exactly these lines, in
this order: `#!/bin/bash`, `set -e` and every pre-command, each behind 8 spaces; one empty
line; the command, `rm /etc/kubeadm.yml` and every post-command, each behind 8 spaces. -/
theorem script_entry (input : cloudinit.BaseUserData) (kubeadmConfig : GoString)
    (hpre : ∀ c ∈ input.PreKubeadmCommands, '\n' ∉ c)
    (hpost : ∀ c ∈ input.PostKubeadmCommands, '\n' ∉ c)
    (hcmd : '\n' ∉ input.KubeadmCommand) :
    ∃ block : GoString,
      clc.renderCLC input kubeadmConfig =
        (some (clc.textHead ++ (input.WriteFiles.map clc.execWriteFile).flatten ++
          "\n  - path: /etc/kubeadm.sh\n    mode: 0700\n    contents:\n      inline: |\n".toList
          ++ block ++
          "\n  - path: /etc/kubeadm.yml\n    mode: 0600\n    contents:\n      inline: |\n".toList
          ++ "        ---\n".toList ++ clc.templateYAMLIndent 8 kubeadmConfig ++ "\n".toList),
         none)
      ∧ strings.Split block '\n' =
          (["#!/bin/bash".toList, "set -e".toList] ++ input.PreKubeadmCommands).map
              (fun l => List.replicate 8 ' ' ++ l)
            ++ [[]]
            ++ ([input.KubeadmCommand, "rm /etc/kubeadm.yml".toList]
                ++ input.PostKubeadmCommands).map (fun l => List.replicate 8 ' ' ++ l)
      ∧ (∀ f : bootstrapv1.File, ∃ t, clc.execWriteFile f = "\n  - path: ".toList ++ f.Path ++ t)
      := by
  refine ⟨strings.Join
      ((["#!/bin/bash".toList, "set -e".toList] ++ input.PreKubeadmCommands).map
          (fun l => List.replicate 8 ' ' ++ l)
        ++ [[]]
        ++ ([input.KubeadmCommand, "rm /etc/kubeadm.yml".toList]
            ++ input.PostKubeadmCommands).map (fun l => List.replicate 8 ' ' ++ l))
      ['\n'], ?_, ?_, ?_⟩
  · unfold clc.renderCLC
    rw [clc.execTemplate_eq]
    rfl
  · have hind : ∀ l : GoString, '\n' ∉ l → '\n' ∉ List.replicate 8 ' ' ++ l := by
      intro l hl hmem
      rcases List.mem_append.mp hmem with h | h
      · exact absurd (List.eq_of_mem_replicate h) (by decide)
      · exact hl h
    apply strings.Split_Join
    · intro l hl
      simp only [List.mem_append, List.mem_map, List.mem_cons, List.mem_singleton,
        List.not_mem_nil, or_false] at hl
      rcases hl with (⟨a, ((rfl | rfl) | ha), rfl⟩ | rfl) | ⟨a, ((rfl | rfl) | ha), rfl⟩
      · exact hind _ (by decide)
      · exact hind _ (by decide)
      · exact hind _ (hpre a ha)
      · simp
      · exact hind _ hcmd
      · exact hind _ (by decide)
      · exact hind _ (hpost a ha)
    · simp
  · intro f
    rw [clc.execWriteFile_eq]
    exact ⟨(if f.Permissions = [] then [] else "\n    mode: ".toList ++ f.Permissions) ++
      "\n    contents:\n      inline: |\n".toList ++ clc.templateYAMLIndent 8 f.Content,
      by simp only [List.append_assoc]⟩

set_option maxRecDepth 100000 in
/-- Witness of C10: a descriptor with one write file, one pre-command, one post-command and
the join command. -/
theorem script_entry_witness :
    (∀ c ∈ exampleScriptBase.PreKubeadmCommands, '\n' ∉ c)
    ∧ (∀ c ∈ exampleScriptBase.PostKubeadmCommands, '\n' ∉ c)
    ∧ '\n' ∉ exampleScriptBase.KubeadmCommand
    ∧ ∃ block : GoString,
      clc.renderCLC exampleScriptBase "kind: JoinConfiguration".toList =
        (some (clc.textHead ++ (exampleScriptBase.WriteFiles.map clc.execWriteFile).flatten ++
          "\n  - path: /etc/kubeadm.sh\n    mode: 0700\n    contents:\n      inline: |\n".toList
          ++ block ++
          "\n  - path: /etc/kubeadm.yml\n    mode: 0600\n    contents:\n      inline: |\n".toList
          ++ "        ---\n".toList
          ++ clc.templateYAMLIndent 8 "kind: JoinConfiguration".toList ++ "\n".toList),
         none)
      ∧ strings.Split block '\n' =
          ["        #!/bin/bash".toList, "        set -e".toList, "        echo before".toList,
           [], "        kubeadm join --config /etc/kubeadm.yml --v 2".toList,
           "        rm /etc/kubeadm.yml".toList, "        echo after".toList] := by
  refine ⟨by decide, by decide, by decide, ?_⟩
  obtain ⟨block, h1, h2, _⟩ := script_entry exampleScriptBase "kind: JoinConfiguration".toList
    (by decide) (by decide) (by decide)
  refine ⟨block, h1, ?_⟩
  rw [h2]
  decide
